import Mathlib

namespace Sim800

/-!
Verification of the sim800l-node AT-command engine and SMS subsystem.

JavaScript strings from the TypeScript source are modelled as lists of
characters (`Chars`); the behaviour of the driver is shallowly embedded as
pure Lean functions translated from `src/index.ts` and `src/models/Sms.ts`.
-/

abbrev Chars := List Char

/-! ## Line parser / classifier (`src/index.ts`, bottom section) -/

/-- A character matched by the character class of the line-splitting regular
expression of `parseBuffer` (CR or LF). -/
def isCrlfChar (c : Char) : Bool := c == '\r' || c == '\n'

/-- Scanner for `parseBuffer`.  The source computes
`buffer.split(/[\r\n]{1,2}/).filter(v => !/^[\r\n]{1,2}$/.test(v) && v.length)`:
the regular expression consumes every CR/LF character (greedily two at a
time), so the filtered pieces are exactly the maximal non-empty runs of
non-CR/LF characters, which this scanner collects directly (`acc` holds the
current run, reversed). -/
def fragsAux : Chars → Chars → List Chars
  | acc, [] => if acc.isEmpty then [] else [acc.reverse]
  | acc, c :: rest =>
    if isCrlfChar c then
      if acc.isEmpty then fragsAux [] rest
      else acc.reverse :: fragsAux [] rest
    else fragsAux (c :: acc) rest

/-- `parseBuffer` from `src/index.ts`: split the raw buffer on CR/LF
sequences and drop empty fragments. -/
def parseBuffer (buffer : Chars) : List Chars := fragsAux [] buffer

/-- JavaScript `buffer.endsWith(suffix)` on our character-list strings. -/
def endsWith (buffer suffix : Chars) : Bool := List.isSuffixOf suffix buffer

/-- `isOk` from `src/index.ts`: the last parsed fragment is `OK`
(`parsedData.length ? parsedData[parsedData.length - 1] === 'OK' : false`)
and the raw buffer ends with CRLF. -/
def isOk (buffer : Chars) : Bool :=
  let parsedData := parseBuffer buffer
  let okField :=
    match parsedData.getLast? with
    | some lastFrag => lastFrag == ['O', 'K']
    | none => false
  okField && endsWith buffer ['\r', '\n']

/-- `isWaitingForInput` from `src/index.ts`: the last fragment is the
prompt `"> "`. -/
def isWaitingForInput (parsedData : List Chars) : Bool :=
  match parsedData.getLast? with
  | some lastFrag => lastFrag == ['>', ' ']
  | none => false

/-- JavaScript `String.prototype.split` with a literal separator, on
character lists: matches are found left to right and are non-overlapping.
The fuel argument (instantiated with the length of the input, an upper
bound on the number of steps) makes the recursion structural. -/
def splitOnAux (sep : Chars) : Nat → Chars → Chars → List Chars
  | _, [], acc => [acc.reverse]
  | 0, s, acc => [acc.reverse ++ s]
  | fuel + 1, c :: rest, acc =>
    if sep.isPrefixOf (c :: rest) then
      acc.reverse :: splitOnAux sep fuel (List.drop sep.length (c :: rest)) []
    else
      splitOnAux sep fuel rest (c :: acc)

/-- `s.split(sep)` for a non-empty literal separator. -/
def splitOnStr (s sep : Chars) : List Chars := splitOnAux sep s.length s []

/-- The return type of `getError` (`ModemErrorRaw` in the source). -/
structure ModemErrorRaw where
  isError : Bool
  message : Option Chars := none
  raw : Option (List Chars) := none
deriving DecidableEq

/-- The separator string `" ERROR: "` used by `getError`. -/
def errSep : Chars := [' ', 'E', 'R', 'R', 'O', 'R', ':', ' ']

/-- The `else if (parsedData && parsedData.length)` branch of `getError`:
a last fragment that is exactly `ERROR` yields a generic error whose message
joins all fragments with `" - "`. -/
def getErrorPlain (parsedData : List Chars) : ModemErrorRaw :=
  match parsedData.getLast? with
  | some lastFrag =>
    if lastFrag = ['E', 'R', 'R', 'O', 'R'] then
      { isError := true,
        message := some (List.intercalate [' ', '-', ' '] parsedData),
        raw := some parsedData }
    else { isError := false }
  | none => { isError := false }

/-- `getError` from `src/index.ts`.  `field` is the last fragment split on
`" ERROR: "` (fragments produced by `parseBuffer` are never empty, so the
JavaScript truthiness test on the last fragment reduces to the emptiness of
the fragment list).  When the buffer is CRLF-terminated and the split has
more than one piece with the first piece starting with `+C`, the source
drops the first piece and joins the rest with a single space
(`field.splice(0, 1); field.join(' ')`). -/
def getError (buffer : Chars) : ModemErrorRaw :=
  let parsedData := parseBuffer buffer
  let bufferComplete := endsWith buffer ['\r', '\n']
  let field : Option (List Chars) :=
    match parsedData.getLast? with
    | some lastFrag => some (splitOnStr lastFrag errSep)
    | none => none
  if bufferComplete then
    match field with
    | some (f0 :: f1 :: frest) =>
      if List.isPrefixOf ['+', 'C'] f0 then
        { isError := true,
          message := some (List.intercalate [' '] (f1 :: frest)),
          raw := some parsedData }
      else getErrorPlain parsedData
    | _ => getErrorPlain parsedData
  else { isError := false }

/-- The text after the first occurrence of `sep` in `s`, following the
wording of the specification (`message:<text after " ERROR: ">`); `none`
when `sep` does not occur.  Stated independently of `getError` so that the
two can be compared. -/
def textAfterSep (sep s : Chars) : Option Chars :=
  match splitOnStr s sep with
  | _ :: t0 :: ts => some (List.intercalate sep (t0 :: ts))
  | _ => none

/-! ## SMS subsystem (`src/models/Sms.ts`, `src/models/types/Sms.ts`) -/

/-- The `SmsStatus` enum from `src/models/types/Sms.ts`. -/
inductive SmsStatus
  | IDLE
  | SENDING
  | SENT
  | DELIVERED
  | ERROR
  | UNKNOWN
deriving DecidableEq

/-- Numeric value of the TypeScript enum member (`IDLE = 0`, `SENDING = 1`,
`SENT = 2`, `DELIVERED = 3`, `ERROR = 4`, `UNKNOWN = 5`). -/
def SmsStatus.code : SmsStatus → Nat
  | .IDLE => 0
  | .SENDING => 1
  | .SENT => 2
  | .DELIVERED => 3
  | .ERROR => 4
  | .UNKNOWN => 5

/-- JavaScript truthiness of the numeric enum value. -/
def SmsStatus.truthy (s : SmsStatus) : Bool := s.code != 0

/-- The opaque PDU payload of one part (`SmsPduData`). -/
structure SmsPduData where
  tpdu_length : Nat
  smsc_tpdu : Chars
deriving DecidableEq

/-- An SMS part (`SmsPduChunk`): job correlation id (uuid, modelled as a
natural number), short reference returned by `+CMGS:`, PDU payload and
status. -/
structure SmsPduChunk where
  id : Nat
  shortId : Nat
  data : SmsPduData
  status : SmsStatus
deriving DecidableEq

/-- The `Sms.status` getter: the status of the last part unless that status
is `IDLE`, in which case the status of the first part; `UNKNOWN` when the
part list is empty.  The length guard of the source makes the getter total;
the match below mirrors it without any out-of-bounds access. -/
def smsStatus (data : List SmsPduChunk) : SmsStatus :=
  match data.getLast?, data.head? with
  | some lastPart, some firstPart =>
    if lastPart.status = SmsStatus.IDLE then firstPart.status else lastPart.status
  | _, _ => SmsStatus.UNKNOWN

/-- The state of an `Sms` relevant to the `text` setter. -/
structure SmsModel where
  text : Chars
  data : List SmsPduChunk
deriving DecidableEq

/-- `generateSmsParts`: the PDU codec (an external collaborator) returns
the ordered payload list `pdu`; each payload becomes a part in `IDLE` with
`shortId = 0` and a fresh uuid (supplied here as `ids`, zipped
positionally). -/
def generateSmsParts (ids : List Nat) (pdu : List SmsPduData) : List SmsPduChunk :=
  (ids.zip pdu).map fun p => { id := p.1, shortId := 0, data := p.2, status := SmsStatus.IDLE }

/-- The `Sms.text` setter: regenerate the part list and store the new text
only when the aggregate status is `UNKNOWN` or `IDLE`. -/
def setText (sms : SmsModel) (value : Chars) (ids : List Nat) (pdu : List SmsPduData) :
    SmsModel :=
  if smsStatus sms.data = SmsStatus.UNKNOWN ∨ smsStatus sms.data = SmsStatus.IDLE then
    { text := value, data := generateSmsParts ids pdu }
  else sms

/-- A queued job as created by `Sms.sendPart` through `execCommand`. -/
structure SendJob where
  command : Chars
  jtype : Chars
  timeout : Nat
  subcommands : List Chars
  reference : Nat
deriving DecidableEq

/-- The job `sendPart` enqueues for one part: `AT+CMGS=<tpdu_length>` with
the PDU payload followed by a SUB terminator (0x1A) as subcommand, a 20 s
timeout and the part id as reference. -/
def smsSendJob (part : SmsPduChunk) : SendJob :=
  { command := ("AT+CMGS=").data ++ (Nat.repr part.data.tpdu_length).data
    jtype := ("sms-send").data
    timeout := 20000
    subcommands := [part.data.smsc_tpdu ++ [Char.ofNat 26]]
    reference := part.id }

/-- `Sms.send`: when the modem is network-ready and initialized, every part
is set to `SENDING` and one send job per part is enqueued (through
`sendPart` and `execCommand`), returning `true`; otherwise it returns
`false`, touching no part and enqueuing nothing — so nothing is written to
the serial port on its behalf.  The `statuschange` events emitted per part
are not tracked here. -/
def smsSend (isNetworkReady isInitialized : Bool) (data : List SmsPduChunk) :
    Bool × List SmsPduChunk × List SendJob :=
  if isNetworkReady && isInitialized then
    (true, data.map (fun p => { p with status := SmsStatus.SENDING }), data.map smsSendJob)
  else
    (false, data, [])

/-- `Array.prototype.find` followed by mutation of the found element:
update the first element satisfying the predicate, leave the rest alone. -/
def updateFirstMatch (p : α → Bool) (f : α → α) : List α → List α
  | [] => []
  | x :: xs => if p x then f x :: xs else x :: updateFirstMatch p f xs

/-- Part-status effect of `smsHandler` on an `OK` reply: the part whose id
matches the job reference becomes `SENT` and records the short reference
parsed from the `+CMGS: ` fragment (`0` when that fragment is missing). -/
def smsHandlerOk (reference : Nat) (short : Option Nat) :
    List SmsPduChunk → List SmsPduChunk :=
  updateFirstMatch (fun c => decide (c.id = reference))
    (fun c => { c with status := SmsStatus.SENT, shortId := short.getD 0 })

/-- Part-status effect of `smsHandler` on an error reply: the part whose id
matches the job reference becomes `ERROR`. -/
def smsHandlerError (reference : Nat) : List SmsPduChunk → List SmsPduChunk :=
  updateFirstMatch (fun c => decide (c.id = reference))
    (fun c => { c with status := SmsStatus.ERROR })

/-- The result of `PDUParser.Parse` on a delivery report (the PDU codec is
an external collaborator): message reference, TPDU type and two-digit
status byte. -/
structure ParsedPdu where
  reference : Nat
  tpdu_type : Chars
  status : Chars
deriving DecidableEq

/-- The status-byte map declared next to `Sms.deliveryReportHandler`. -/
def deliveryStatusMap : List (Chars × Chars) :=
  [ (("00").data, ("successfully transmitted").data),
    (("41").data, ("incompatible destination").data),
    (("43").data, ("not available").data),
    (("50").data, ("receipient not registered").data),
    (("60").data, ("full").data),
    (("61").data, ("busy").data),
    (("62").data, ("not answering").data),
    (("72").data, ("line suspended").data) ]

/-- `Map.prototype.get`. -/
def mapGet (m : List (Chars × Chars)) (k : Chars) : Option Chars :=
  (m.find? fun e => decide (e.1 = k)).map (·.2)

/-- Events emitted by the `Sms` class (the sms uuid field, identical on
every event of one instance, is omitted). -/
inductive SmsEvent
  | statuschange (part : Nat) (partStatus : SmsStatus) (aggregate : SmsStatus)
      (message : Option Chars)
  | smserror (part : Nat) (error : Chars) (errorStatus : Chars)
deriving DecidableEq

/-- JavaScript template interpolation of a possibly undefined map lookup. -/
def interpolate (head : Chars) (v : Option Chars) : Chars :=
  head ++ v.getD ("undefined").data

/-- `Sms.deliveryReportHandler`: when the parsed reference is non-zero
(JavaScript truthiness of `parser.reference`) and the TPDU type is
`SMS-STATUS-REPORT`, the first part whose `shortId` equals the reference is
set to `DELIVERED` on status byte `"00"` and to `ERROR` on any other byte,
emitting the corresponding events; any other report leaves the parts
untouched. -/
def deliveryReportHandler (p : ParsedPdu) (data : List SmsPduChunk) :
    List SmsPduChunk × List SmsEvent :=
  if p.reference ≠ 0 ∧ p.tpdu_type = ("SMS-STATUS-REPORT").data then
    match data.find? (fun c => decide (c.shortId = p.reference)) with
    | none => (data, [])
    | some part =>
      if p.status = ("00").data then
        let newData := updateFirstMatch (fun c => decide (c.shortId = p.reference))
          (fun c => { c with status := SmsStatus.DELIVERED }) data
        (newData,
          [SmsEvent.statuschange part.id SmsStatus.DELIVERED (smsStatus newData)
            (some (interpolate ("delivery report : ").data
              (mapGet deliveryStatusMap p.status)))])
      else
        let newData := updateFirstMatch (fun c => decide (c.shortId = p.reference))
          (fun c => { c with status := SmsStatus.ERROR }) data
        (newData,
          [SmsEvent.smserror part.id
            (interpolate ("delivery error: ").data (mapGet deliveryStatusMap p.status))
            p.status,
          SmsEvent.statuschange part.id SmsStatus.ERROR (smsStatus newData)
            (some (interpolate ("delivery report : ").data
              (mapGet deliveryStatusMap p.status)))])
  else (data, [])

/-! ## SMS spooler (`Sim800L.spooler` and `spliceFromSpooler`, `src/index.ts`) -/

/-- An outbox entry: the `Sms` fields the spooler reads.  The `sendFlag`
property is referenced by the spooler but declared nowhere in the `Sms`
class of the repository; it is modelled as a plain boolean field, following
the specification (`If its sendFlag is set and aggregate status is IDLE,
clear the flag and send it`). -/
structure OutboxSms where
  id : Nat
  sendFlag : Bool
  data : List SmsPduChunk
deriving DecidableEq

/-- Aggregate status of an outbox entry (the `Sms.status` getter). -/
def OutboxSms.status (s : OutboxSms) : SmsStatus := smsStatus s.data

/-- `spliceFromSpooler`: remove the first entry with the given id, if
any. -/
def spliceFromSpooler (id : Nat) (spool : List OutboxSms) : List OutboxSms :=
  match spool.findIdx? (fun sms => decide (sms.id = id)) with
  | some index => spool.eraseIdx index
  | none => spool

/-- One tick of the 500 ms spooler interval.  The condition of the second
branch transcribes the source disjunction
`sms.status === SmsStatus.SENT || SmsStatus.DELIVERED`, whose right operand
is the bare enum value `SmsStatus.DELIVERED` (that is, 3 — truthy in
JavaScript), not a comparison.  `sms.send()` runs here with the modem
initialized and network-ready, so its effect on the entry is to mark every
part `SENDING`; the jobs it enqueues are not tracked by this function. -/
def spoolerTick (isNetworkReady isInitialized : Bool) (outbox : List OutboxSms) :
    List OutboxSms :=
  if isNetworkReady && isInitialized then
    match outbox with
    | [] => []
    | sms :: rest =>
      if sms.sendFlag && decide (sms.status = SmsStatus.IDLE) then
        { sms with
            sendFlag := false,
            data := (smsSend isNetworkReady isInitialized sms.data).2.1 } :: rest
      else if decide (sms.status = SmsStatus.SENT) || SmsStatus.DELIVERED.truthy then
        spliceFromSpooler sms.id (sms :: rest)
      else if !sms.sendFlag && decide (sms.status = SmsStatus.IDLE) then
        rest ++ [sms]
      else sms :: rest
  else outbox

/-! ## Supervisor: brownout detector (`src/index.ts`) -/

/-- The lifecycle flags and counters of `Sim800L` touched by the brownout
path, plus `resetsIssued`, an observer counting executed `resetModem`
bodies. -/
structure SupervisorState where
  initialized : Bool
  networkReady : Bool
  retryNumber : Nat
  resetNumber : Nat
  networkRetry : Nat
  brownoutNumber : Nat
  resetsIssued : Nat
deriving DecidableEq

/-- The state effect of `resetModem`: the guard `resetNumber > 5` raises
the fatal `Too many retries` error before any mutation (inside the
promisified call the throw lands in a rejected promise); otherwise the
reset bumps `resetNumber`, clears the lifecycle flags and counters (the
queue and data buffer it also clears live in the engine model below), and
schedules re-initialization through its 6 s settle handler. -/
def resetModemStep (st : SupervisorState) : SupervisorState :=
  if st.resetNumber > 5 then st
  else
    { initialized := false
      networkReady := false
      retryNumber := 0
      resetNumber := st.resetNumber + 1
      networkRetry := 0
      brownoutNumber := 0
      resetsIssued := st.resetsIssued + 1 }

/-- `brownoutHandler`: reset (with re-initialization) if `brownoutNumber`
already exceeds 3, then increment `brownoutNumber`. -/
def brownoutHandlerStep (st : SupervisorState) : SupervisorState :=
  let st1 := if st.brownoutNumber > 3 then resetModemStep st else st
  { st1 with brownoutNumber := st1.brownoutNumber + 1 }

/-- One tick of the 20 s `brownoutDetector` interval, parameterized by the
outcome of the `checkModem` probe: on a failed probe (or while
uninitialized) the `brownout` event fires, running `brownoutHandler`
synchronously; on success `brownoutNumber` is zeroed. -/
def brownoutDetectorTick (probeOk : Bool) (st : SupervisorState) : SupervisorState :=
  if !probeOk || !st.initialized then brownoutHandlerStep st
  else { st with brownoutNumber := 0 }

/-! ## Command engine (`execCommand`, `handleIncomingData`, `nextEvent`,
`cancelEvent` and `clear` in `src/index.ts`) -/

/-- A queued job as the engine sees it.  `timeoutSet` models
`timeoutIdentifier !== null`; `written` is an observer recording that the
command bytes of the job have been written to the serial port — the write
happens in `nextEvent`, exactly when the timer is first armed and the
command is non-empty. -/
structure EngJob where
  uuid : Nat
  command : Chars
  ended : Bool
  timeoutSet : Bool
  written : Bool
deriving DecidableEq

/-- Queue and busy flag of the engine.  The accumulation buffer is not
tracked: its contents never influence which of these transitions fire — the
reaction of a handler to the buffer is abstracted by the `endHead`
parameter of the byte-arrival step. -/
structure EngineState where
  queue : List EngJob
  busy : Bool
deriving DecidableEq

/-- `nextEvent`, with explicit fuel for the mutual recursion through
`clear` (each recursive call shortens the queue by one, so
`queue.length + 1` steps always suffice): an ended head is cleared — timer
dismissed, busy flag dropped, buffer wiped, queue shifted, `nextEvent`
rerun; otherwise, when not busy, a head without an armed timer has its
timer armed and its command written (with a trailing CR unless the command
already ends in SUB or ESC — the terminator does not matter here) whenever
the command is non-empty. -/
def nextEventAux : Nat → EngineState → EngineState
  | 0, st => st
  | fuel + 1, st =>
    match st.queue with
    | [] => st
    | job :: rest =>
      if job.ended then
        nextEventAux fuel { queue := rest, busy := false }
      else if st.busy then st
      else if job.timeoutSet then
        { st with busy := false }
      else
        { queue := { job with
            timeoutSet := true,
            written := job.written || !job.command.isEmpty } :: rest,
          busy := false }

def nextEvent (st : EngineState) : EngineState := nextEventAux (st.queue.length + 1) st

/-- A fresh job as created by `execCommand`. -/
def mkJob (uuid : Nat) (command : Chars) : EngJob :=
  { uuid := uuid, command := command, ended := false, timeoutSet := false, written := false }

/-- `execCommand`: push the new job at the tail, or — for
`immediate = true` — unshift it at the head, then run `nextEvent`. -/
def execCommandStep (uuid : Nat) (command : Chars) (immediate : Bool)
    (st : EngineState) : EngineState :=
  if immediate then nextEvent { queue := mkJob uuid command :: st.queue, busy := st.busy }
  else nextEvent { queue := st.queue ++ [mkJob uuid command], busy := st.busy }

/-- `handleIncomingData`: raise `busy`, append the chunk to the buffer (not
tracked), then dispatch to the head job's handler — shifting an ended head
first — or, on an empty queue, create an `incoming` job (empty command,
fresh uuid modelled as 0) and run `incomingHandler` on it; whether the
handler finishes its job is abstracted by `endHead`.  Finally drop `busy`
and run `nextEvent`.  When the defensive shift empties the queue the source
dereferences `undefined` and throws; that state is unreachable at rest (the
head of the queue is never ended between steps, see `EngInv`), and is
modelled as dispatching to nothing. -/
def handleIncomingDataStep (endHead : Bool) (st : EngineState) : EngineState :=
  let st1 : EngineState :=
    match st.queue with
    | [] => { queue := [{ mkJob 0 [] with ended := endHead }], busy := true }
    | job :: rest =>
      if job.ended then
        match rest with
        | [] => { queue := [], busy := true }
        | j2 :: r2 => { queue := { j2 with ended := j2.ended || endHead } :: r2, busy := true }
      else { queue := { job with ended := job.ended || endHead } :: rest, busy := true }
  nextEvent { queue := st1.queue, busy := false }

/-- `cancelEvent` (the per-job timeout): after the failure callback and the
diagnostic events, the job is filtered out of the queue, the buffer wiped,
`busy` dropped and `nextEvent` rerun. -/
def cancelEventStep (uuid : Nat) (st : EngineState) : EngineState :=
  nextEvent { queue := st.queue.filter (fun item => !(item.uuid == uuid)), busy := false }

/-- The engine stimuli quantified over by claim C1. -/
inductive EngEvent
  | enqueue (uuid : Nat) (command : Chars) (immediate : Bool)
  | bytes (endHead : Bool)
  | timeout (uuid : Nat)
deriving DecidableEq

def EngEvent.isImmediate : EngEvent → Bool
  | .enqueue _ _ immediate => immediate
  | _ => false

def engStep (e : EngEvent) (st : EngineState) : EngineState :=
  match e with
  | .enqueue uuid command immediate => execCommandStep uuid command immediate st
  | .bytes endHead => handleIncomingDataStep endHead st
  | .timeout uuid => cancelEventStep uuid st

def engRun (events : List EngEvent) (st : EngineState) : EngineState :=
  events.foldl (fun s e => engStep e s) st

def initialEngineState : EngineState := { queue := [], busy := false }

/-- The number of queued jobs that are unfinished yet already written to
the port. -/
def activeWritten (st : EngineState) : Nat :=
  (st.queue.filter (fun j => j.written && !j.ended)).length

/-- A job that has never been head: no timer, not written, not ended. -/
def CleanJob (j : EngJob) : Prop := j.timeoutSet = false ∧ j.written = false ∧ j.ended = false

/-- Rest-state invariant of the engine under tail-only enqueues: the busy
flag is down, every job behind the head is clean, and the head job is not
ended. -/
def EngInv (st : EngineState) : Prop :=
  st.busy = false ∧ (∀ j ∈ st.queue.drop 1, CleanJob j) ∧
    ∀ j, st.queue.head? = some j → j.ended = false

/-! ## Handler exception propagation (`handleIncomingData` dispatch,
`defaultHandler` and `incomingHandler` in `src/index.ts`) -/

/-- `findKey`: some fragment starts with the given key. -/
def findKey (parsedData : List Chars) (key : Chars) : Bool :=
  parsedData.any (fun value => key.isPrefixOf value)

/-- `isNewSms`: a `+CMTI: ` fragment is present. -/
def isNewSms (parsedData : List Chars) : Bool := findKey parsedData ("+CMTI: ").data

/-- `isNetworkInfo`: a `+CREG: ` fragment is present. -/
def isNetworkInfo (parsedData : List Chars) : Bool := findKey parsedData ("+CREG: ").data

/-- `isDeliveryReport`: a `+CDS: ` fragment is present. -/
def isDeliveryReport (parsedData : List Chars) : Bool := findKey parsedData ("+CDS: ").data

/-- `isNetworkReadyIncomingBuffer`: both `Call Ready` and `SMS Ready`
appear as fragments. -/
def isNetworkReadyIncomingBuffer (parsedData : List Chars) : Bool :=
  parsedData.contains ("Call Ready").data && parsedData.contains ("SMS Ready").data

/-- The `+CDS:` branch condition of `incomingHandler`: the fragment after
the `+CDS: <n>` fragment has arrived and the raw buffer is
CRLF-terminated. -/
def deliveryReportReady (buffer : Chars) : Bool :=
  let parsedData := parseBuffer buffer
  match parsedData.findIdx? (fun key => ("+CDS: ").data.isPrefixOf key) with
  | some cdsIndex => decide (parsedData.length > cdsIndex + 1) && endsWith buffer ['\r', '\n']
  | none => false

/-- The mutable job fields relevant to claim C8. -/
structure C8JobData where
  uuid : Nat
  ended : Bool
deriving DecidableEq

/-- A job handler: it consumes the accumulated buffer and returns the
updated job, or throws (`Except.error`).  `execCommand` accepts arbitrary
user-supplied handlers of this shape. -/
def HandlerFn := Chars → C8JobData → Except Unit C8JobData

/-- A queued job together with its handler. -/
structure C8Job where
  data : C8JobData
  handler : HandlerFn

/-- `defaultHandler`: its body — terminate the job with a success callback
on `isOk`, or with a failure callback on `getError(...).isError` — is
wrapped in a try/catch whose catch arm forces `ended := true`; in this pure
embedding the body is total, so the handler never throws. -/
def defaultHandlerE : HandlerFn := fun buffer jd =>
  Except.ok { jd with ended := jd.ended || (isOk buffer || (getError buffer).isError) }

/-- `incomingHandler`: classifies unsolicited data — network-ready banner,
`+CMTI:`, a complete `+CDS:` report, `+CREG:` — ending the job on each
recognized shape; its body is likewise wrapped in a try/catch forcing
`ended := true`, and is total in this embedding. -/
def incomingHandlerE : HandlerFn := fun buffer jd =>
  let parsedData := parseBuffer buffer
  Except.ok { jd with ended :=
    jd.ended || isNetworkReadyIncomingBuffer parsedData || isNewSms parsedData ||
      deliveryReportReady buffer || isNetworkInfo parsedData }

/-- The dispatch site of `handleIncomingData`: an ended head is shifted
first, then the handler of the head job is invoked on the accumulated
buffer; on an empty queue an `incoming` job is created (uuid modelled 0)
and `incomingHandler` runs on it.  Neither call is wrapped in try/catch: a
throwing handler propagates out of `handleIncomingData` (here
`Except.error`, carrying the queue as the crash leaves it — the dispatched
job unchanged), and the `busy = false` and `nextEvent()` continuations are
never reached.  (When the defensive shift empties the queue the source
dereferences `undefined` and throws; that corner is modelled as an empty
dispatch.) -/
def engineDispatch (incoming : HandlerFn) (buffer : Chars) (queue : List C8Job) :
    Except (List C8Job) (List C8Job) :=
  match queue with
  | [] =>
    let job : C8Job := ⟨⟨0, false⟩, incoming⟩
    match incoming buffer job.data with
    | Except.ok d => Except.ok [{ job with data := d }]
    | Except.error _ => Except.error [job]
  | job :: rest =>
    let q := if job.data.ended then rest else job :: rest
    match q with
    | [] => Except.ok []
    | j :: r =>
      match j.handler buffer j.data with
      | Except.ok d => Except.ok ({ j with data := d } :: r)
      | Except.error _ => Except.error (j :: r)

/-! ## Theorems -/

/-! ### Parser lemmas -/

theorem getLast?_cons_of_getLast? {α : Type} {l : List α} {v : α} (y : α)
    (h : l.getLast? = some v) : (y :: l).getLast? = some v := by
  cases l with
  | nil => simp at h
  | cons a as => rw [List.getLast?_cons_cons]; exact h

/-- Appending a final LF to a buffer does not change its fragment list. -/
theorem fragsAux_append_lf (xs : Chars) :
    ∀ acc, fragsAux acc (xs ++ ['\n']) = fragsAux acc xs := by
  induction xs with
  | nil =>
    intro acc
    cases acc <;> simp [fragsAux, isCrlfChar]
  | cons c rest ih =>
    intro acc
    by_cases h : isCrlfChar c = true
    · by_cases ha : acc.isEmpty = true
      · simp [fragsAux, h, ha, ih]
      · simp [fragsAux, h, ha, ih]
    · simp [fragsAux, h, ih]

/-- A buffer ending in `"\r\nOK\r"` has `OK` as its last fragment, whatever
precedes and whatever run is currently accumulated. -/
theorem fragsAux_last_ok (xs : Chars) :
    ∀ acc, (fragsAux acc (xs ++ ['\r', '\n', 'O', 'K', '\r'])).getLast? = some ['O', 'K'] := by
  induction xs with
  | nil =>
    intro acc
    cases acc <;> simp [fragsAux, isCrlfChar]
  | cons c rest ih =>
    intro acc
    by_cases h : isCrlfChar c = true
    · by_cases ha : acc.isEmpty = true
      · simpa [fragsAux, h, ha] using ih []
      · simpa [fragsAux, h, ha] using getLast?_cons_of_getLast? acc.reverse (ih [])
    · simpa [fragsAux, h] using ih (c :: acc)

/-- A buffer whose last character is CR does not end with CRLF. -/
theorem endsWith_crlf_eq_false_of_getLast_cr {b : Chars} (h : b.getLast? = some '\r') :
    endsWith b ['\r', '\n'] = false := by
  cases hE : endsWith b ['\r', '\n'] with
  | false => rfl
  | true =>
    exfalso
    obtain ⟨t, ht⟩ := List.isSuffixOf_iff_suffix.mp hE
    rw [← ht, show t ++ ['\r', '\n'] = (t ++ ['\r']) ++ ['\n'] by simp,
      List.getLast?_concat] at h
    simp at h

theorem isOk_eq_false_of_ends_ok_cr {b : Chars} (h : endsWith b ['O', 'K', '\r'] = true) :
    isOk b = false := by
  obtain ⟨t, ht⟩ := List.isSuffixOf_iff_suffix.mp h
  have hlast : b.getLast? = some '\r' := by
    rw [← ht, show t ++ ['O', 'K', '\r'] = (t ++ ['O', 'K']) ++ ['\r'] by simp,
      List.getLast?_concat]
  unfold isOk
  simp [endsWith_crlf_eq_false_of_getLast_cr hlast]

/-! ### Claim C2 -/

/-- C2: `isOk(b)` is true exactly when the last non-empty fragment of `b`
(split on CR/LF) is `OK` and the raw buffer ends with CRLF.  Consequently a
buffer ending in `"OK\r"` (no trailing LF) never satisfies `isOk` and hence
does not complete a job, while a buffer whose trailing `OK` is a complete
fragment (it ends in `"\r\nOK\r"`) satisfies `isOk` as soon as `"\n"` is
appended. -/
theorem isOk_iff_last_fragment_ok_and_crlf (b : Chars) :
    (isOk b = true ↔
      (parseBuffer b).getLast? = some ['O', 'K'] ∧ endsWith b ['\r', '\n'] = true) ∧
    (endsWith b ['O', 'K', '\r'] = true → isOk b = false) ∧
    (endsWith b ['\r', '\n', 'O', 'K', '\r'] = true →
      isOk b = false ∧ isOk (b ++ ['\n']) = true) := by
  refine ⟨?_, fun h => isOk_eq_false_of_ends_ok_cr h, fun h => ?_⟩
  · unfold isOk
    cases h : (parseBuffer b).getLast? with
    | none => simp [h]
    | some lf => simp [h]
  · obtain ⟨t, ht⟩ := List.isSuffixOf_iff_suffix.mp h
    have hokcr : endsWith b ['O', 'K', '\r'] = true := by
      apply List.isSuffixOf_iff_suffix.mpr
      exact ⟨t ++ ['\r', '\n'], by simp [← ht]⟩
    refine ⟨isOk_eq_false_of_ends_ok_cr hokcr, ?_⟩
    have hfrag : (parseBuffer (b ++ ['\n'])).getLast? = some ['O', 'K'] := by
      unfold parseBuffer
      rw [fragsAux_append_lf, ← ht]
      exact fragsAux_last_ok t []
    have hend : endsWith (b ++ ['\n']) ['\r', '\n'] = true := by
      apply List.isSuffixOf_iff_suffix.mpr
      refine ⟨t ++ ['\r', '\n', 'O', 'K'], ?_⟩
      rw [← ht]; simp
    simp only [isOk]
    rw [hfrag]
    simp [hend]

/-- Witness for C2 at the concrete buffer `"\r\nOK\r"`. -/
theorem isOk_iff_last_fragment_ok_and_crlf_witness :
    isOk ("\r\nOK\r").data = false ∧ isOk (("\r\nOK\r").data ++ ['\n']) = true :=
  (isOk_iff_last_fragment_ok_and_crlf ("\r\nOK\r").data).2.2 (by decide)

/-! ### Claim C3 -/

/-- C3 (amended): a buffer that does not end with CRLF yields
`{isError := false}`.  On a CRLF-terminated buffer whose last fragment
starts with `+C` and contains `" ERROR: "`, `getError` reports an error
whose message joins the pieces after the first occurrence with a single
space; when `" ERROR: "` occurs exactly once this equals the text after
`" ERROR: "`, as on the specification example
`"\r\n+CME ERROR: SIM not inserted\r\n"`. -/
theorem getError_crlf_gate_and_cme_message (b : Chars) :
    (endsWith b ['\r', '\n'] = false → getError b = { isError := false }) ∧
    (∀ lf f0 f1 fs,
      endsWith b ['\r', '\n'] = true →
      (parseBuffer b).getLast? = some lf →
      splitOnStr lf errSep = f0 :: f1 :: fs →
      List.isPrefixOf ['+', 'C'] f0 = true →
      getError b = { isError := true,
                     message := some (List.intercalate [' '] (f1 :: fs)),
                     raw := some (parseBuffer b) } ∧
      (fs = [] → some (List.intercalate [' '] (f1 :: fs)) = textAfterSep errSep lf)) ∧
    getError ("\r\n+CME ERROR: SIM not inserted\r\n").data =
      { isError := true,
        message := some ("SIM not inserted").data,
        raw := some [("+CME ERROR: SIM not inserted").data] } := by
  refine ⟨fun h => ?_, fun lf f0 f1 fs hend hlast hsplit hpfx => ⟨?_, fun hfs => ?_⟩, by decide⟩
  · unfold getError
    simp [h]
  · simp only [getError]
    rw [hlast]
    simp [hend, hsplit, hpfx]
  · subst hfs
    simp [textAfterSep, hsplit, List.intercalate]

/-- Witness for C3 at the specification example. -/
theorem getError_crlf_gate_and_cme_message_witness :
    getError ("\r\n+CME ERROR: SIM not inserted\r\n").data =
      { isError := true,
        message := some ("SIM not inserted").data,
        raw := some [("+CME ERROR: SIM not inserted").data] } :=
  ((getError_crlf_gate_and_cme_message ("\r\n+CME ERROR: SIM not inserted\r\n").data).2.1
      ("+CME ERROR: SIM not inserted").data ("+CME").data ("SIM not inserted").data []
      (by decide) (by decide) (by decide) (by decide)).1

/-- C3 counterexample: on a CRLF-terminated buffer whose last fragment
begins with `+C` and contains `" ERROR: "` twice, `getError` joins the
pieces after the first occurrence with a single space (`"x y"`), which is
not the text after `" ERROR: "` (`"x ERROR: y"`). -/
theorem getError_message_differs_from_text_after :
    (getError (("\r\n+CME ERROR: x ERROR: y\r\n").data)).isError = true ∧
    (getError (("\r\n+CME ERROR: x ERROR: y\r\n").data)).message = some ("x y").data ∧
    textAfterSep errSep ("+CME ERROR: x ERROR: y").data = some ("x ERROR: y").data ∧
    (getError (("\r\n+CME ERROR: x ERROR: y\r\n").data)).message ≠
      textAfterSep errSep ("+CME ERROR: x ERROR: y").data := by
  decide

/-! ### Claim C10 -/

/-- C10: an `Sms` whose part list is empty (for example when the PDU codec
returned no parts) has aggregate status `UNKNOWN` — the getter is total, by
the emptiness guard of the source, and never indexes out of bounds — and in
that state the `text` setter is permitted to regenerate the part list. -/
theorem smsStatus_empty_unknown_and_setter (sms : SmsModel) (h : sms.data = []) :
    smsStatus sms.data = SmsStatus.UNKNOWN ∧
    ∀ value ids pdu,
      setText sms value ids pdu = { text := value, data := generateSmsParts ids pdu } := by
  have hs : smsStatus sms.data = SmsStatus.UNKNOWN := by rw [h]; rfl
  exact ⟨hs, fun value ids pdu => by simp [setText, hs]⟩

/-- Witness for C10 on a part-less `Sms`. -/
theorem smsStatus_empty_unknown_and_setter_witness :
    smsStatus (SmsModel.mk [] []).data = SmsStatus.UNKNOWN ∧
    setText (SmsModel.mk [] []) ("hi").data [1] [⟨5, []⟩] =
      { text := ("hi").data, data := generateSmsParts [1] [⟨5, []⟩] } := by
  obtain ⟨h1, h2⟩ := smsStatus_empty_unknown_and_setter (SmsModel.mk [] []) rfl
  exact ⟨h1, h2 _ _ _⟩

/-! ### Claim C9 -/

/-- C9: `Sms.send` returns `false` and has no effect — no part status or
`shortId` change, no job enqueued, hence nothing written to the serial port
on its behalf — unless the modem is both initialized and network-ready, in
which case it marks every part `SENDING` and enqueues exactly one send job
per part. -/
theorem smsSend_frame_effect (ready init : Bool) (data : List SmsPduChunk) :
    (ready = false ∨ init = false → smsSend ready init data = (false, data, [])) ∧
    (ready = true → init = true →
      smsSend ready init data =
        (true, data.map (fun p => { p with status := SmsStatus.SENDING }),
          data.map smsSendJob)) := by
  constructor
  · rintro (rfl | rfl) <;> simp [smsSend]
  · rintro rfl rfl; simp [smsSend]

/-- Witness for C9 on a one-part SMS, with the modem not network-ready and
then fully ready. -/
theorem smsSend_frame_effect_witness :
    smsSend false true ([⟨1, 0, ⟨7, []⟩, SmsStatus.IDLE⟩] : List SmsPduChunk) =
      (false, ([⟨1, 0, ⟨7, []⟩, SmsStatus.IDLE⟩] : List SmsPduChunk), []) ∧
    smsSend true true ([⟨1, 0, ⟨7, []⟩, SmsStatus.IDLE⟩] : List SmsPduChunk) =
      (true,
        ([⟨1, 0, ⟨7, []⟩, SmsStatus.IDLE⟩] : List SmsPduChunk).map
          (fun p => { p with status := SmsStatus.SENDING }),
        ([⟨1, 0, ⟨7, []⟩, SmsStatus.IDLE⟩] : List SmsPduChunk).map smsSendJob) :=
  ⟨(smsSend_frame_effect false true _).1 (Or.inl rfl),
   (smsSend_frame_effect true true _).2 rfl rfl⟩

/-! ### Claim C6 -/

/-- C6 (amended): for a non-empty part list, aggregate status `DELIVERED`
guarantees that some part — the last one, or the first one when the last is
`IDLE` — is `DELIVERED`, but not that every part is (see the
counterexample). -/
theorem smsStatus_delivered_some_part (data : List SmsPduChunk)
    (hne : data ≠ []) (h : smsStatus data = SmsStatus.DELIVERED) :
    ∃ c ∈ data, c.status = SmsStatus.DELIVERED := by
  cases hl : data.getLast? with
  | none => exact absurd (List.getLast?_eq_none_iff.mp hl) hne
  | some lastP =>
    cases hh : data.head? with
    | none => exact absurd (List.head?_eq_none_iff.mp hh) hne
    | some firstP =>
      unfold smsStatus at h
      rw [hl, hh] at h
      have h' : (if lastP.status = SmsStatus.IDLE then firstP.status else lastP.status) =
          SmsStatus.DELIVERED := h
      by_cases hi : lastP.status = SmsStatus.IDLE
      · rw [if_pos hi] at h'
        exact ⟨firstP, List.mem_of_mem_head? (by rw [hh]; rfl), h'⟩
      · rw [if_neg hi] at h'
        exact ⟨lastP, List.mem_of_mem_getLast? (by rw [hl]; rfl), h'⟩

/-- Witness for C6 on a delivered single-part SMS. -/
theorem smsStatus_delivered_some_part_witness :
    ∃ c ∈ [(⟨1, 42, ⟨10, []⟩, SmsStatus.DELIVERED⟩ : SmsPduChunk)],
      c.status = SmsStatus.DELIVERED :=
  smsStatus_delivered_some_part _ (by decide) (by decide)

/-- C6 counterexample: a two-part SMS whose first part failed to send
(`smsHandler` error path) and whose second part was sent with short
reference 42 and then delivered (`deliveryReportHandler`, byte `"00"`) — a
state produced by the source handlers themselves — has aggregate status
`DELIVERED` while its first part is `ERROR`, refuting the claim that
aggregate `DELIVERED` implies every part is `DELIVERED`. -/
theorem smsStatus_delivered_not_all_delivered :
    (let s0 : List SmsPduChunk :=
      [ { id := 1, shortId := 0, data := ⟨10, []⟩, status := SmsStatus.IDLE },
        { id := 2, shortId := 0, data := ⟨11, []⟩, status := SmsStatus.IDLE } ]
     let s1 := (smsSend true true s0).2.1
     let s2 := smsHandlerError 1 s1
     let s3 := smsHandlerOk 2 (some 42) s2
     let s4 := (deliveryReportHandler ⟨42, ("SMS-STATUS-REPORT").data, ("00").data⟩ s3).1
     smsStatus s4 = SmsStatus.DELIVERED ∧ ¬ (∀ c ∈ s4, c.status = SmsStatus.DELIVERED)) := by
  decide

/-! ### Claim C7 -/

theorem updateFirstMatch_append {α : Type} (q : α → Bool) (f : α → α)
    (pre : List α) (post : List α) (x : α)
    (hpre : ∀ c ∈ pre, q c = false) (hx : q x = true) :
    updateFirstMatch q f (pre ++ x :: post) = pre ++ f x :: post := by
  induction pre with
  | nil => simp [updateFirstMatch, hx]
  | cons a as ih =>
    have ha : q a = false := hpre a (by simp)
    simp [updateFirstMatch, ha, ih (fun c hc => hpre c (by simp [hc]))]

theorem find?_append_first {α : Type} (q : α → Bool) (pre post : List α) (x : α)
    (hpre : ∀ c ∈ pre, q c = false) (hx : q x = true) :
    (pre ++ x :: post).find? q = some x := by
  rw [List.find?_append]
  have hnone : pre.find? q = none :=
    List.find?_eq_none.mpr (fun c hc => by simp [hpre c hc])
  rw [hnone, List.find?_cons_of_pos post hx]
  rfl

/-- C7 (amended): a delivery report of type `SMS-STATUS-REPORT` whose
non-zero reference equals the short reference of some part updates exactly
one part — the first one whose `shortId` matches — setting it to
`DELIVERED` on status byte `"00"` and to `ERROR` on any other byte, with
the message drawn from the status-byte map (byte `"41"` maps to
`incompatible destination`); reprocessing the same report changes the parts
no further, so a `SENT` part transitions to `DELIVERED` exactly once; and a
report whose reference matches no part changes nothing.  The non-zero
hypothesis is forced by the source, which tests `parser.reference` for
JavaScript truthiness and therefore drops reference 0 (see the
counterexample). -/
theorem deliveryReportHandler_routing (p : ParsedPdu) (pre post : List SmsPduChunk)
    (part : SmsPduChunk)
    (htype : p.tpdu_type = ("SMS-STATUS-REPORT").data)
    (href : p.reference ≠ 0)
    (hpre : ∀ c ∈ pre, c.shortId ≠ p.reference)
    (hpart : part.shortId = p.reference) :
    (deliveryReportHandler p (pre ++ part :: post)).1 =
      pre ++ { part with status :=
        if p.status = ("00").data then SmsStatus.DELIVERED else SmsStatus.ERROR } :: post ∧
    (deliveryReportHandler p ((deliveryReportHandler p (pre ++ part :: post)).1)).1 =
      (deliveryReportHandler p (pre ++ part :: post)).1 ∧
    (∀ data, (∀ c ∈ data, c.shortId ≠ p.reference) →
      deliveryReportHandler p data = (data, [])) ∧
    mapGet deliveryStatusMap ("41").data = some ("incompatible destination").data ∧
    (p.status ≠ ("00").data →
      (deliveryReportHandler p (pre ++ part :: post)).2 =
        [SmsEvent.smserror part.id
          (interpolate ("delivery error: ").data (mapGet deliveryStatusMap p.status)) p.status,
         SmsEvent.statuschange part.id SmsStatus.ERROR
           (smsStatus (pre ++ { part with status := SmsStatus.ERROR } :: post))
           (some (interpolate ("delivery report : ").data
             (mapGet deliveryStatusMap p.status)))]) := by
  have hq : (fun c : SmsPduChunk => decide (c.shortId = p.reference)) part = true := by
    simp [hpart]
  have hqpre : ∀ c ∈ pre, (fun c : SmsPduChunk => decide (c.shortId = p.reference)) c = false :=
    fun c hc => by simpa using hpre c hc
  have hfind := find?_append_first _ pre post part hqpre hq
  have hupd := fun g =>
    updateFirstMatch_append (fun c : SmsPduChunk => decide (c.shortId = p.reference))
      g pre post part hqpre hq
  have hmain :
      (deliveryReportHandler p (pre ++ part :: post)).1 =
        pre ++ { part with status :=
          if p.status = ("00").data then SmsStatus.DELIVERED else SmsStatus.ERROR } :: post := by
    by_cases hs : p.status = ("00").data
    · simp only [deliveryReportHandler, if_pos (And.intro href htype), hfind, if_pos hs,
        hupd fun c => { c with status := SmsStatus.DELIVERED }]
    · simp only [deliveryReportHandler, if_pos (And.intro href htype), hfind, if_neg hs,
        hupd fun c => { c with status := SmsStatus.ERROR }]
  refine ⟨hmain, ?_, ?_, by decide, ?_⟩
  · rw [hmain]
    set part' : SmsPduChunk := { part with status :=
      if p.status = ("00").data then SmsStatus.DELIVERED else SmsStatus.ERROR } with hpart'
    have hq' : (fun c : SmsPduChunk => decide (c.shortId = p.reference)) part' = true := by
      simp [hpart', hpart]
    have hfind' := find?_append_first _ pre post part' hqpre hq'
    have hupd' := fun g =>
      updateFirstMatch_append (fun c : SmsPduChunk => decide (c.shortId = p.reference))
        g pre post part' hqpre hq'
    by_cases hs : p.status = ("00").data
    · simp only [deliveryReportHandler, if_pos (And.intro href htype), hfind', if_pos hs,
        hupd' fun c => { c with status := SmsStatus.DELIVERED }]
      simp [hpart', hs]
    · simp only [deliveryReportHandler, if_pos (And.intro href htype), hfind', if_neg hs,
        hupd' fun c => { c with status := SmsStatus.ERROR }]
      simp [hpart', hs]
  · intro data hdata
    have hnone : data.find? (fun c => decide (c.shortId = p.reference)) = none :=
      List.find?_eq_none.mpr (fun c hc => by simpa using hdata c hc)
    simp only [deliveryReportHandler, if_pos (And.intro href htype), hnone]
  · intro hs
    simp only [deliveryReportHandler, if_pos (And.intro href htype), hfind, if_neg hs,
      hupd fun c => { c with status := SmsStatus.ERROR }]

/-- Witness for C7: a delivery report with reference 42 and byte `"00"`
delivers the single `SENT` part with `shortId = 42`. -/
theorem deliveryReportHandler_routing_witness :
    (deliveryReportHandler ⟨42, ("SMS-STATUS-REPORT").data, ("00").data⟩
      ([⟨2, 42, ⟨11, []⟩, SmsStatus.SENT⟩] : List SmsPduChunk)).1 =
      [({ id := 2, shortId := 42, data := ⟨11, []⟩, status := SmsStatus.DELIVERED } :
        SmsPduChunk)] := by
  have h := (deliveryReportHandler_routing ⟨42, ("SMS-STATUS-REPORT").data, ("00").data⟩
    [] [] ⟨2, 42, ⟨11, []⟩, SmsStatus.SENT⟩ rfl (by decide) (by simp) rfl).1
  simpa using h

/-- C7 counterexample: `parser.reference` is tested for JavaScript
truthiness, so a delivery report whose reference is zero is dropped even
when its reference equals the short reference of a part (short reference 0
occurs when the `+CMGS` reply carried no parsable reference): the claim
predicts that this part becomes `DELIVERED` on status byte `"00"`, but the
handler leaves it `SENT` and emits nothing. -/
theorem deliveryReportHandler_zero_reference_dropped :
    deliveryReportHandler ⟨0, ("SMS-STATUS-REPORT").data, ("00").data⟩
        ([⟨1, 0, ⟨10, []⟩, SmsStatus.SENT⟩] : List SmsPduChunk) =
      (([⟨1, 0, ⟨10, []⟩, SmsStatus.SENT⟩] : List SmsPduChunk), []) ∧
    (([⟨1, 0, ⟨10, []⟩, SmsStatus.SENT⟩] : List SmsPduChunk).map SmsPduChunk.status ≠
      [SmsStatus.DELIVERED]) := by
  decide

/-! ### Claim C4 -/

/-- C4: the head-removal condition of the spooler,
`sms.status === SmsStatus.SENT || SmsStatus.DELIVERED`, is true for every
aggregate status (the bare enum value `DELIVERED = 3` is truthy), so
whenever the first branch does not fire the head is removed from the
outbox.  In particular a head with aggregate status `SENDING` — which the
claim and the specification rotate to the tail — is removed, and the
rotation branch is dead code. -/
theorem spoolerTick_always_removes_head :
    (∀ s : SmsStatus, (decide (s = SmsStatus.SENT) || SmsStatus.DELIVERED.truthy) = true) ∧
    spoolerTick true true
        ([⟨1, false, [⟨10, 7, ⟨10, []⟩, SmsStatus.SENDING⟩]⟩,
          ⟨2, false, [⟨20, 0, ⟨10, []⟩, SmsStatus.IDLE⟩]⟩] : List OutboxSms) =
      ([⟨2, false, [⟨20, 0, ⟨10, []⟩, SmsStatus.IDLE⟩]⟩] : List OutboxSms) ∧
    spoolerTick true true
        ([⟨1, false, [⟨10, 7, ⟨10, []⟩, SmsStatus.SENDING⟩]⟩,
          ⟨2, false, [⟨20, 0, ⟨10, []⟩, SmsStatus.IDLE⟩]⟩] : List OutboxSms) ≠
      ([⟨2, false, [⟨20, 0, ⟨10, []⟩, SmsStatus.IDLE⟩]⟩,
        ⟨1, false, [⟨10, 7, ⟨10, []⟩, SmsStatus.SENDING⟩]⟩] : List OutboxSms) :=
  ⟨fun s => by cases s <;> rfl, by decide, by decide⟩

/-! ### Claim C5 -/

/-- C5 (amended): starting from `brownoutNumber = 0`, each failed probe
increments `brownoutNumber`; after the 4th consecutive failure the counter
is 4 — it exceeds 3 — but no reset has been issued yet, because the handler
tests the counter before incrementing it; the reset with re-initialization
is issued by the 5th consecutive failed probe; and a successful probe while
initialized zeroes `brownoutNumber`. -/
theorem brownout_reset_on_fifth_failure (st : SupervisorState)
    (h0 : st.brownoutNumber = 0) (hres : st.resetNumber ≤ 5) :
    (brownoutDetectorTick false (brownoutDetectorTick false (brownoutDetectorTick false
      (brownoutDetectorTick false st)))).brownoutNumber = 4 ∧
    (brownoutDetectorTick false (brownoutDetectorTick false (brownoutDetectorTick false
      (brownoutDetectorTick false st)))).resetsIssued = st.resetsIssued ∧
    (brownoutDetectorTick false (brownoutDetectorTick false (brownoutDetectorTick false
      (brownoutDetectorTick false (brownoutDetectorTick false st))))).resetsIssued =
      st.resetsIssued + 1 ∧
    (∀ st' : SupervisorState, st'.initialized = true →
      (brownoutDetectorTick true st').brownoutNumber = 0) := by
  have e1 : brownoutDetectorTick false st = { st with brownoutNumber := 1 } := by
    simp [brownoutDetectorTick, brownoutHandlerStep, h0]
  have e2 : brownoutDetectorTick false { st with brownoutNumber := 1 } =
      { st with brownoutNumber := 2 } := rfl
  have e3 : brownoutDetectorTick false { st with brownoutNumber := 2 } =
      { st with brownoutNumber := 3 } := rfl
  have e4 : brownoutDetectorTick false { st with brownoutNumber := 3 } =
      { st with brownoutNumber := 4 } := rfl
  have e5 : brownoutDetectorTick false { st with brownoutNumber := 4 } =
      { initialized := false, networkReady := false, retryNumber := 0,
        resetNumber := st.resetNumber + 1, networkRetry := 0, brownoutNumber := 1,
        resetsIssued := st.resetsIssued + 1 } := by
    have hng : ¬ (st.resetNumber > 5) := Nat.not_lt.mpr hres
    simp [brownoutDetectorTick, brownoutHandlerStep, resetModemStep, hng]
  refine ⟨?_, ?_, ?_, fun st' h' => by simp [brownoutDetectorTick, h']⟩
  · rw [e1, e2, e3, e4]
  · rw [e1, e2, e3, e4]
  · rw [e1, e2, e3, e4, e5]

/-- Witness for C5 from a freshly initialized supervisor state. -/
theorem brownout_reset_on_fifth_failure_witness :
    (brownoutDetectorTick false (brownoutDetectorTick false (brownoutDetectorTick false
      (brownoutDetectorTick false
        (⟨true, true, 0, 0, 0, 0, 0⟩ : SupervisorState))))).brownoutNumber = 4 ∧
    (brownoutDetectorTick false (brownoutDetectorTick false (brownoutDetectorTick false
      (brownoutDetectorTick false (brownoutDetectorTick false
        (⟨true, true, 0, 0, 0, 0, 0⟩ : SupervisorState)))))).resetsIssued = 0 + 1 := by
  have h := brownout_reset_on_fifth_failure ⟨true, true, 0, 0, 0, 0, 0⟩ rfl (by decide)
  exact ⟨h.1, h.2.2.1⟩

/-- C5 counterexample: after the 4th consecutive failed probe from a fresh
state, `brownoutNumber` is 4 (it exceeds 3) yet no reset has been issued —
`resetModem` has not run (`resetsIssued = 0`) and `resetNumber` is
untouched; the reset only happens on the 5th failure. -/
theorem brownout_no_reset_after_fourth_failure :
    (let st4 := brownoutDetectorTick false (brownoutDetectorTick false (brownoutDetectorTick
      false (brownoutDetectorTick false (⟨true, true, 0, 0, 0, 0, 0⟩ : SupervisorState))))
     st4.brownoutNumber = 4 ∧ st4.brownoutNumber > 3 ∧
       st4.resetsIssued = 0 ∧ st4.resetNumber = 0) := by
  decide

theorem nextEventAux_inv (fuel : Nat) :
    ∀ st : EngineState, st.busy = false → st.queue.length < fuel →
      (∀ j ∈ st.queue.drop 1, CleanJob j) → EngInv (nextEventAux fuel st) := by
  induction fuel with
  | zero => exact fun st _ hf _ => absurd hf (Nat.not_lt_zero _)
  | succ n ih =>
    intro st hb hf ht
    rw [nextEventAux]
    cases hq : st.queue with
    | nil => exact ⟨hb, by simp [hq], by simp [hq]⟩
    | cons job rest =>
      dsimp only
      by_cases he : job.ended = true
      · rw [if_pos he]
        refine ih _ rfl ?_ ?_
        · have : rest.length + 1 < n + 1 := by
            simpa [hq] using hf
          exact Nat.lt_of_succ_lt_succ this
        · intro j hj
          exact ht j (by simp [hq]; exact List.drop_subset 1 rest hj)
      · rw [if_neg he, if_neg (by simp [hb])]
        have hje : job.ended = false := by simpa using he
        by_cases hts : job.timeoutSet = true
        · rw [if_pos hts]
          refine ⟨rfl, ?_, ?_⟩
          · simpa [hq] using ht
          · intro j hj
            simp only [hq, List.head?_cons, Option.some.injEq] at hj
            rw [← hj]; exact hje
        · rw [if_neg hts]
          refine ⟨rfl, ?_, ?_⟩
          · intro j hj
            simp only [List.drop_succ_cons, List.drop_zero] at hj
            exact ht j (by simp [hq, hj])
          · intro j hj
            simp only [List.head?_cons, Option.some.injEq] at hj
            rw [← hj]; exact hje

theorem engInv_initial : EngInv initialEngineState :=
  ⟨rfl, by simp [initialEngineState], by simp [initialEngineState]⟩

theorem engInv_enqueue_tail (uuid : Nat) (command : Chars) (st : EngineState)
    (h : EngInv st) : EngInv (execCommandStep uuid command false st) := by
  obtain ⟨hb, ht, _⟩ := h
  unfold execCommandStep nextEvent
  rw [if_neg (by simp)]
  refine nextEventAux_inv _ _ hb (Nat.lt_succ_self _) ?_
  intro j hj
  cases hq : st.queue with
  | nil => simp [hq] at hj
  | cons a t =>
    simp only [hq, List.cons_append, List.drop_succ_cons, List.drop_zero] at hj
    rcases List.mem_append.mp hj with hmem | hmem
    · exact ht j (by simp [hq, hmem])
    · simp only [List.mem_singleton] at hmem
      subst hmem
      exact ⟨rfl, rfl, rfl⟩

theorem engInv_bytes (endHead : Bool) (st : EngineState) (h : EngInv st) :
    EngInv (handleIncomingDataStep endHead st) := by
  obtain ⟨hb, ht, hh⟩ := h
  unfold handleIncomingDataStep nextEvent
  cases hq : st.queue with
  | nil =>
    refine nextEventAux_inv _ _ rfl (Nat.lt_succ_self _) ?_
    simp
  | cons job rest =>
    have hje : job.ended = false := hh job (by rw [hq]; rfl)
    simp only [hje, Bool.false_eq_true, if_false]
    refine nextEventAux_inv _ _ rfl (Nat.lt_succ_self _) ?_
    intro j hj
    simp only [List.drop_succ_cons, List.drop_zero] at hj
    exact ht j (by simp [hq, hj])

theorem tailClean_filter (q : List EngJob) (f : EngJob → Bool)
    (h : ∀ j ∈ q.drop 1, CleanJob j) : ∀ j ∈ (q.filter f).drop 1, CleanJob j := by
  cases q with
  | nil => simp
  | cons a t =>
    intro j hj
    have hsub : j ∈ t := by
      rw [List.filter_cons] at hj
      by_cases hfa : f a = true
      · rw [if_pos hfa] at hj
        simp only [List.drop_succ_cons, List.drop_zero] at hj
        exact List.mem_of_mem_filter hj
      · rw [if_neg hfa] at hj
        exact List.mem_of_mem_filter (List.drop_subset 1 _ hj)
    exact h j (by simpa using hsub)

theorem engInv_timeout (uuid : Nat) (st : EngineState) (h : EngInv st) :
    EngInv (cancelEventStep uuid st) := by
  obtain ⟨_, ht, _⟩ := h
  unfold cancelEventStep nextEvent
  exact nextEventAux_inv _ _ rfl (Nat.lt_succ_self _) (tailClean_filter _ _ ht)

theorem engInv_run (events : List EngEvent) :
    ∀ st : EngineState, EngInv st → (∀ e ∈ events, e.isImmediate = false) →
      EngInv (engRun events st) := by
  induction events with
  | nil => exact fun st h _ => h
  | cons e es ih =>
    intro st h hi
    have h1 : EngInv (engStep e st) := by
      cases e with
      | enqueue u c imm =>
        have himm : imm = false := by
          simpa [EngEvent.isImmediate] using hi _ (List.mem_cons_self _ _)
        subst himm
        exact engInv_enqueue_tail u c st h
      | bytes eh => exact engInv_bytes eh st h
      | timeout u => exact engInv_timeout u st h
    exact ih _ h1 (fun e' he' => hi e' (List.mem_cons_of_mem _ he'))

theorem activeWritten_le_one_of_tail_clean (st : EngineState)
    (h : ∀ j ∈ st.queue.drop 1, CleanJob j) : activeWritten st ≤ 1 := by
  unfold activeWritten
  cases hq : st.queue with
  | nil => simp
  | cons a t =>
    have hts : t.filter (fun j => j.written && !j.ended) = [] := by
      rw [List.filter_eq_nil_iff]
      intro j hj
      have hc := h j (by simp [hq, hj])
      simp [hc.2.1]
    rw [List.filter_cons]
    by_cases hfa : (a.written && !a.ended) = true
    · rw [if_pos hfa, hts]
      simp
    · rw [if_neg hfa, hts]
      simp

/-! ### Claim C1 -/

/-- C1 (amended): for every sequence of engine steps containing no
immediate enqueue, at most one queued job is simultaneously unfinished
(`ended = false`) and written to the port.  An immediate enqueue breaks the
property: the new head is written as soon as it becomes head with no armed
timer, even while the displaced job is written and unfinished — behaviour
`resetModem` relies on to escape a pending `>` prompt (see the
counterexample). -/
theorem at_most_one_active_written (events : List EngEvent)
    (himm : ∀ e ∈ events, e.isImmediate = false) :
    activeWritten (engRun events initialEngineState) ≤ 1 :=
  activeWritten_le_one_of_tail_clean _
    (engInv_run events initialEngineState engInv_initial himm).2.1

/-- Witness for C1 on a tail-only run: enqueue, bytes finishing the head,
another enqueue. -/
theorem at_most_one_active_written_witness :
    activeWritten (engRun
      [EngEvent.enqueue 1 ("AT").data false, EngEvent.bytes true,
       EngEvent.enqueue 2 ("AT+CMEE=2").data false] initialEngineState) ≤ 1 :=
  at_most_one_active_written _ (by decide)

/-- C1 counterexample: enqueue a job (its command is written as it becomes
head), then enqueue an immediate job while the first is written and
unfinished — the very pattern of `resetModem`, whose immediate `CR ESC`
write escapes a pending `>` prompt of an active SMS job.  The immediate job
is written at once, so two queued jobs are simultaneously unfinished and
written, refuting both the at-most-one invariant and the claim that an
immediate insert is not written until the head completes. -/
theorem immediate_insert_written_while_head_active :
    (let final := engRun
      [EngEvent.enqueue 1 ("AT").data false,
       EngEvent.enqueue 2 ('\r' :: [Char.ofNat 27]) true] initialEngineState
     activeWritten final = 2 ∧
     final.queue.map (fun j => (j.uuid, j.written, j.ended)) =
       [(2, true, false), (1, true, false)]) := by
  decide

/-! ### Claim C8 -/

/-- C8 (amended): the engine does not catch handler exceptions — the
`job.handler(...)` call in `handleIncomingData` is unguarded, so a throwing
handler propagates with its job left unfinished, and the queue wedges until
that job's timeout fires.  The try/catch forcing `ended := true` lives
inside `defaultHandler` and `incomingHandler` themselves, which therefore
never propagate an exception and terminate their job on the documented
conditions. -/
theorem handler_throw_not_caught_by_engine :
    (∀ (buffer : Chars) (j : C8Job) (r : List C8Job),
      j.data.ended = false → j.handler buffer j.data = Except.error () →
      engineDispatch incomingHandlerE buffer (j :: r) = Except.error (j :: r)) ∧
    (∀ (buffer : Chars) (jd : C8JobData), ∃ d,
      defaultHandlerE buffer jd = Except.ok d ∧
      (isOk buffer = true → d.ended = true) ∧
      ((getError buffer).isError = true → d.ended = true)) ∧
    (∀ (buffer : Chars) (jd : C8JobData), ∃ d, incomingHandlerE buffer jd = Except.ok d) := by
  refine ⟨fun buffer j r hje hthrow => ?_, fun buffer jd => ?_, fun buffer jd => ⟨_, rfl⟩⟩
  · simp only [engineDispatch, hje, Bool.false_eq_true, if_false, hthrow]
  · exact ⟨_, rfl, fun h => by simp [h], fun h => by simp [h]⟩

/-- Witness for C8: a user-supplied handler that always throws propagates
through the dispatch, and the default handler finishes its job on a plain
`OK` reply. -/
theorem handler_throw_not_caught_by_engine_witness :
    engineDispatch incomingHandlerE ("x").data
        ([⟨⟨7, false⟩, fun _ _ => Except.error ()⟩] : List C8Job) =
      Except.error ([⟨⟨7, false⟩, fun _ _ => Except.error ()⟩] : List C8Job) ∧
    (∃ d, defaultHandlerE ("\r\nOK\r\n").data ⟨3, false⟩ = Except.ok d ∧
      (isOk ("\r\nOK\r\n").data = true → d.ended = true) ∧
      ((getError ("\r\nOK\r\n").data).isError = true → d.ended = true)) :=
  ⟨(handler_throw_not_caught_by_engine).1 ("x").data ⟨⟨7, false⟩, fun _ _ => Except.error ()⟩
      [] rfl rfl,
    (handler_throw_not_caught_by_engine).2.1 ("\r\nOK\r\n").data ⟨3, false⟩⟩

/-- C8 counterexample: the engine dispatch of a throwing handler — a shape
`execCommand` accepts from user code — propagates the exception, and the
queue it leaves behind still holds the job with `ended = false`: the engine
did not force `ended := true`, contradicting the claim that it does so for
every handler. -/
theorem engine_leaves_thrown_job_unended :
    engineDispatch incomingHandlerE ("x").data
        ([⟨⟨7, false⟩, fun _ _ => Except.error ()⟩] : List C8Job) =
      Except.error ([⟨⟨7, false⟩, fun _ _ => Except.error ()⟩] : List C8Job) ∧
    (([⟨⟨7, false⟩, fun _ _ => Except.error ()⟩] : List C8Job).map fun j => j.data.ended) =
      [false] :=
  ⟨rfl, rfl⟩

end Sim800
